import Mathlib

/-!
Verification of the CMS core: dynamic field validation, field-level
permission filtering, and the workflow state machine.  Definitions are a
shallow embedding of the Go sources (`internal/content/service.go`,
`internal/content/handler.go`, the `middleware` permission filter and the
`workflow` package).  Persistence is modelled by explicit state: the entry
store is a list of stored entries, wall-clock time is a natural-number
parameter, and the Go `regexp.MatchString` collaborator is a function
parameter (returning `none` on pattern-compilation failure).
-/

namespace CMS

/-- Entry payload values: the Go `interface` values a decoded JSON map can
hold.  Numbers are modelled as integers; the numeric range comparison in
the source is order-generic, so nothing proved here depends on float
rounding. -/
inductive Value where
  | vStr (s : String)
  | vNum (n : Int)
  | vBool (b : Bool)
  | vNull
deriving DecidableEq, Repr

/-- An entry data payload: a string-keyed map, modelled as an association
list (Go map semantics: lookup by key, insert replaces). -/
abbrev Data := List (String × Value)

/-- Map-style insertion: replace the binding if the key exists, otherwise
append. -/
def dataInsert (d : Data) (k : String) (v : Value) : Data :=
  match d with
  | [] => [(k, v)]
  | (k₀, v₀) :: rest => if k₀ = k then (k, v) :: rest else (k₀, v₀) :: dataInsert rest k v

/-- The emptiness test `!exists or value == nil or value == ""` applied to a
map lookup result. -/
def isEmptyValue (v : Option Value) : Bool :=
  match v with
  | none => true
  | some Value.vNull => true
  | some (Value.vStr s) => s == ""
  | some _ => false

/-- Field definition (`models.ContentField`): a name, a declared type tag
and the optional constraint bag. -/
structure ContentField where
  name : String
  type : String
  required : Bool := false
  isSEO : Bool := false
  unique : Bool := false
  maxLength : Option Nat := none
  minLength : Option Nat := none
  pattern : String := ""
  minValue : Option Int := none
  maxValue : Option Int := none
  defaultValue : String := ""
  placeholder : String := ""
  helpText : String := ""
deriving DecidableEq, Repr

/-- Content type (`models.ContentType`): regular and SEO field lists share
the `ContentField` shape, partitioned by the `isSEO` tag. -/
structure ContentType where
  id : Nat
  name : String := ""
  slug : String := ""
  enableSEO : Bool := false
  fields : List ContentField := []
  seoFields : List ContentField := []
deriving DecidableEq, Repr

/-- Size in bytes of one character under UTF-8, as Go strings store text. -/
def charUtf8Size (c : Char) : Nat :=
  if c.toNat < 0x80 then 1
  else if c.toNat < 0x800 then 2
  else if c.toNat < 0x10000 then 3
  else 4

/-- Byte length of a string: what Go `len(s)` returns on a string value. -/
def utf8ByteLength (s : String) : Nat :=
  s.data.foldl (fun n c => n + charUtf8Size c) 0

/-- Characters admitted by the built-in slug character class. -/
def isSlugChar (c : Char) : Bool :=
  (decide (c ≥ 'a') && decide (c ≤ 'z')) || (decide (c ≥ '0') && decide (c ≤ '9'))

/-- Matching against the fixed built-in slug shape: nonempty lowercase
alphanumeric runs separated by single hyphens. -/
def slugMatches (s : String) : Bool :=
  (s.splitOn "-").all (fun p => !p.isEmpty && p.toList.all isSlugChar)

/-- Character class of the local part of the built-in email shape. -/
def isEmailLocalChar (c : Char) : Bool :=
  c.isAlpha || c.isDigit || c == '.' || c == '_' || c == '%' || c == '+' || c == '-'

/-- Character class of the domain part of the built-in email shape. -/
def isEmailDomainChar (c : Char) : Bool :=
  c.isAlpha || c.isDigit || c == '.' || c == '-'

/-- Matching against the conservative built-in email shape: a nonempty
local part, one at-sign, a nonempty domain, a final dot and a TLD of at
least two letters (the anchored class forces the split at the last dot). -/
def emailMatches (s : String) : Bool :=
  match s.splitOn "@" with
  | [localPart, domain] =>
    !localPart.isEmpty && localPart.toList.all isEmailLocalChar &&
    (match (domain.splitOn ".").reverse with
     | tld :: restRev =>
       !restRev.isEmpty &&
       decide (2 ≤ tld.length) && tld.toList.all Char.isAlpha &&
       (let front := String.intercalate "." restRev.reverse
        !front.isEmpty && front.toList.all isEmailDomainChar)
     | [] => false)
  | _ => false

/-- Scheme shape of an absolute URI: a letter followed by letters, digits,
plus, minus or dot, before the first colon. -/
def hasScheme (s : String) : Bool :=
  match s.splitOn ":" with
  | scheme :: _ :: _ =>
    match scheme.toList with
    | c :: cs => c.isAlpha && cs.all (fun d => d.isAlpha || d.isDigit || d == '+' || d == '-' || d == '.')
    | [] => false
  | _ => false

/-- Boundary model of the URI parser used for url and media fields: accepts
a nonempty string without spaces or control characters that is either an
absolute path or carries a URI scheme. -/
def urlMatches (s : String) : Bool :=
  !s.isEmpty &&
  s.toList.all (fun c => decide (0x20 < c.toNat) && c.toNat != 0x7f) &&
  (s.startsWith "/" || hasScheme s)

/-- Leap year rule of the proleptic Gregorian calendar. -/
def isLeapYear (y : Nat) : Bool :=
  (y % 4 == 0 && y % 100 != 0) || y % 400 == 0

/-- Number of days in a month. -/
def daysInMonth (y m : Nat) : Nat :=
  if m == 2 then (if isLeapYear y then 29 else 28)
  else if m == 4 || m == 6 || m == 9 || m == 11 then 30
  else 31

/-- Boundary model of parsing a calendar date in the fixed zero-padded
layout used by date fields. -/
def dateMatches (s : String) : Bool :=
  match s.splitOn "-" with
  | [ys, ms, ds] =>
    ys.length == 4 && ms.length == 2 && ds.length == 2 &&
    (match ys.toNat?, ms.toNat?, ds.toNat? with
     | some y, some m, some d =>
       decide (1 ≤ m) && decide (m ≤ 12) && decide (1 ≤ d) && decide (d ≤ daysInMonth y m)
     | _, _, _ => false)
  | _ => false

/-- The regular-expression collaborator: given a pattern and a subject,
`none` models a pattern-compilation failure, `some b` a match outcome. -/
abbrev RegexMatcher := String → String → Option Bool

/-- The trailing built-in check of string validation: a field literally
named slug must match the fixed slug shape regardless of any configured
pattern. -/
def slugGuard (field : ContentField) (strVal : String) : Except String Unit :=
  if field.name == "slug" && !slugMatches strVal then
    Except.error ("field " ++ field.name ++ " must be a valid slug")
  else Except.ok ()

/-- String validation: requires a string value, bounds its Go byte length
by minLength and maxLength, applies the configured pattern and finally the
built-in slug check. -/
def validateString (rm : RegexMatcher) (field : ContentField) (value : Value) : Except String Unit :=
  match value with
  | Value.vStr strVal =>
    if (match field.minLength with | some m => decide (utf8ByteLength strVal < m) | none => false) then
      Except.error ("field " ++ field.name ++ " is below the minimum length")
    else if (match field.maxLength with | some m => decide (m < utf8ByteLength strVal) | none => false) then
      Except.error ("field " ++ field.name ++ " exceeds the maximum length")
    else if field.pattern == "" then slugGuard field strVal
    else
      match rm field.pattern strVal with
      | none => Except.error ("invalid pattern for field " ++ field.name)
      | some false => Except.error ("field " ++ field.name ++ " does not match required pattern")
      | some true => slugGuard field strVal
  | _ => Except.error ("field " ++ field.name ++ " must be string")

/-- Email validation: requires a string matching the built-in email shape. -/
def validateEmail (field : ContentField) (value : Value) : Except String Unit :=
  match value with
  | Value.vStr s =>
    if emailMatches s then Except.ok ()
    else Except.error ("field " ++ field.name ++ " must be a valid email address")
  | _ => Except.error ("field " ++ field.name ++ " must be string")

/-- URL validation: requires a string accepted by the URI parser. -/
def validateURL (field : ContentField) (value : Value) : Except String Unit :=
  match value with
  | Value.vStr s =>
    if urlMatches s then Except.ok ()
    else Except.error ("field " ++ field.name ++ " must be a valid URL")
  | _ => Except.error ("field " ++ field.name ++ " must be string")

/-- Number validation: requires a numeric value and bounds it inclusively
by minValue and maxValue. -/
def validateNumber (field : ContentField) (value : Value) : Except String Unit :=
  match value with
  | Value.vNum n =>
    if (match field.minValue with | some m => decide (n < m) | none => false) then
      Except.error ("field " ++ field.name ++ " is below the minimum value")
    else if (match field.maxValue with | some m => decide (m < n) | none => false) then
      Except.error ("field " ++ field.name ++ " exceeds the maximum value")
    else Except.ok ()
  | _ => Except.error ("field " ++ field.name ++ " must be a number")

/-- Date validation: requires a string parseable as a calendar date. -/
def validateDate (field : ContentField) (value : Value) : Except String Unit :=
  match value with
  | Value.vStr s =>
    if dateMatches s then Except.ok ()
    else Except.error ("field " ++ field.name ++ " must be a calendar date")
  | _ => Except.error ("field " ++ field.name ++ " must be date string")

/-- Media validation: requires a string accepted by the URI parser. -/
def validateMedia (field : ContentField) (value : Value) : Except String Unit :=
  match value with
  | Value.vStr s =>
    if urlMatches s then Except.ok ()
    else Except.error ("field " ++ field.name ++ " must be a valid URL")
  | _ => Except.error ("field " ++ field.name ++ " must be a valid media URL")

/-- Dispatch on the declared type tag; an unrecognised tag performs no
check. -/
def validateFieldByType (rm : RegexMatcher) (field : ContentField) (value : Value) : Except String Unit :=
  match field.type with
  | "string" | "text" => validateString rm field value
  | "email" => validateEmail field value
  | "url" => validateURL field value
  | "number" => validateNumber field value
  | "boolean" =>
    match value with
    | Value.vBool _ => Except.ok ()
    | _ => Except.error ("field " ++ field.name ++ " must be boolean")
  | "date" => validateDate field value
  | "media" => validateMedia field value
  | _ => Except.ok ()

/-- A persisted entry as seen by the uniqueness query: its id, owning
content type and stored payload. -/
structure StoredEntry where
  id : Nat
  contentTypeId : Nat
  data : Data
deriving DecidableEq, Repr

/-- The entry store consulted by uniqueness checks. -/
abbrev EntryDB := List StoredEntry

/-- Uniqueness check: count stored entries of the same content type whose
payload holds the candidate value under the field name, excluding the
entry being updated when an exclusion id is supplied; any hit is an
error. -/
def checkUniqueness (db : EntryDB) (contentTypeId : Nat) (fieldName : String) (value : Value)
    (excludeEntryId : Option Nat) : Except String Unit :=
  let hits := db.filter fun e =>
    e.contentTypeId == contentTypeId &&
    (match e.data.lookup fieldName with | some v => v == value | none => false) &&
    (match excludeEntryId with | some ex => e.id != ex | none => true)
  if 0 < hits.length then
    Except.error ("field " ++ fieldName ++ " must be unique")
  else Except.ok ()

/-- Loop body of full validation over the schema field list: an
absent/nil/empty value fails when required, otherwise receives the
configured default (injected as a string, unvalidated); a present value is
dispatched by declared type and then uniqueness-checked without
exclusion. -/
def validateFields (rm : RegexMatcher) (db : EntryDB) (ctId : Nat) :
    List ContentField → Data → Except String Data
  | [], data => Except.ok data
  | field :: rest, data =>
    match data.lookup field.name with
    | none =>
      if field.required then Except.error ("field " ++ field.name ++ " is required")
      else if field.defaultValue == "" then validateFields rm db ctId rest data
      else validateFields rm db ctId rest (dataInsert data field.name (Value.vStr field.defaultValue))
    | some value =>
      if isEmptyValue (some value) then
        (if field.required then Except.error ("field " ++ field.name ++ " is required")
         else if field.defaultValue == "" then validateFields rm db ctId rest data
         else validateFields rm db ctId rest (dataInsert data field.name (Value.vStr field.defaultValue)))
      else
        match validateFieldByType rm field value with
        | Except.error e => Except.error e
        | Except.ok _ =>
          match (if field.unique then checkUniqueness db ctId field.name value none else Except.ok ()) with
          | Except.error e => Except.error e
          | Except.ok _ => validateFields rm db ctId rest data

/-- Full validation of a candidate payload against a content type: walks
the combined regular and SEO field list and returns the payload with
defaults injected. -/
def ValidateContentEntryEnhanced (rm : RegexMatcher) (db : EntryDB) (ct : ContentType)
    (data : Data) : Except String Data :=
  validateFields rm db ct.id (ct.fields ++ ct.seoFields) data

/-- Lookup in the name-keyed field map the partial validator builds; a
later field with the same name overwrites an earlier one, as map insertion
does. -/
def lastFieldNamed (fields : List ContentField) (k : String) : Option ContentField :=
  fields.foldl (fun acc f => if f.name == k then some f else acc) none

/-- Character-list comparison underlying the suffix test. -/
def prefixChars : List Char → List Char → Bool
  | [], _ => true
  | _ :: _, [] => false
  | c :: cs, d :: ds => c == d && prefixChars cs ds

/-- The suffix test the handlers and the partial validator apply to field
names (Go strings.HasSuffix), written out over the character lists. -/
def strEndsWith (s sfx : String) : Bool :=
  prefixChars sfx.data.reverse s.data.reverse

/-- Loop body of partial validation over the submitted pairs: media-id
suffixed keys are skipped, unknown names are rejected, a present nil/empty
value of a required field is rejected, and a present value receives the
per-type check plus the self-excluding uniqueness check. -/
def partialLoop (rm : RegexMatcher) (db : EntryDB) (ctId entryId : Nat)
    (allFields : List ContentField) : Data → Except String Unit
  | [] => Except.ok ()
  | (fieldName, value) :: rest =>
    if strEndsWith fieldName "_media_id" then partialLoop rm db ctId entryId allFields rest
    else
      match lastFieldNamed allFields fieldName with
      | none => Except.error ("field " ++ fieldName ++ " does not exist in content type")
      | some field =>
        if isEmptyValue (some value) then
          (if field.required then
            Except.error ("field " ++ field.name ++ " is required and cannot be empty")
          else partialLoop rm db ctId entryId allFields rest)
        else
          match validateFieldByType rm field value with
          | Except.error e => Except.error e
          | Except.ok _ =>
            match (if field.unique then checkUniqueness db ctId field.name value (some entryId)
                   else Except.ok ()) with
            | Except.error e => Except.error e
            | Except.ok _ => partialLoop rm db ctId entryId allFields rest

/-- Partial validation for updates: only the submitted pairs are examined,
against the combined field list of the content type, excluding the entry
being updated from uniqueness checks. -/
def ValidatePartialUpdate (rm : RegexMatcher) (db : EntryDB) (ct : ContentType)
    (updatedFields : Data) (entryId : Nat) : Except String Unit :=
  partialLoop rm db ct.id entryId (ct.fields ++ ct.seoFields) updatedFields

/-- A role permission (`models.Permission`): the nullable JSON list columns
are modelled as plain lists, empty standing for absent, since the source
only ever tests their length. -/
structure Permission where
  module : String
  action : String
  fieldScope : String := ""
  allowedFields : List String := []
  deniedFields : List String := []
  contentTypeIds : List Nat := []
deriving DecidableEq, Repr

/-- A role owning its permission set. -/
structure Role where
  name : String
  permissions : List Permission
deriving DecidableEq, Repr

/-- A user as the permission filter sees it: its preloaded, possibly
absent role. -/
structure User where
  role : Option Role
deriving DecidableEq, Repr

/-- The twelve module-action pairs of the full-access completeness check. -/
def fullAccessPairs : List (String × String) :=
  [("ContentEntry", "create"), ("ContentEntry", "read"),
   ("ContentEntry", "update"), ("ContentEntry", "delete"),
   ("Media", "create"), ("Media", "read"), ("Media", "update"), ("Media", "delete"),
   ("SEO", "create"), ("SEO", "read"), ("SEO", "update"), ("SEO", "delete")]

/-- Full-access test: a user with no role is not full access; a role
literally named admin is; otherwise the role must hold every one of the
twelve module-action pairs (field scopes are not consulted). -/
def IsFullAccessRole (user : User) : Bool :=
  match user.role with
  | none => false
  | some role =>
    role.name == "admin" ||
    fullAccessPairs.all fun pr =>
      role.permissions.any fun p => p.module == pr.1 && p.action == pr.2

/-- Whether one permission applies to the requested action on the given
content type: module and action must match, and a nonempty content-type
whitelist must contain the id. -/
def permApplies (action : String) (contentTypeId : Nat) (p : Permission) : Bool :=
  p.module == "ContentEntry" && p.action == action &&
  (p.contentTypeIds.isEmpty || p.contentTypeIds.contains contentTypeId)

/-- The first applicable permission in declaration order, continuing past
permissions whose content-type whitelist excludes the target. -/
def findApplicablePermission (perms : List Permission) (action : String) (ctId : Nat) :
    Option Permission :=
  perms.find? (permApplies action ctId)

/-- Whether a schema field survives the given scope in the generic
filtering loop; any scope other than the two SEO scopes keeps the field. -/
def scopeKeeps (scope : String) (f : ContentField) : Bool :=
  match scope with
  | "seo_only" => f.isSEO
  | "non_seo_only" => !f.isSEO
  | _ => true

/-- The generic filtering loop: a submitted pair survives when the first
schema field carrying its name passes the scope test; pairs naming no
schema field are dropped. -/
def filterByScope (scope : String) (allFields : List ContentField) (data : Data) : Data :=
  data.filter fun kv =>
    match allFields.find? (fun f => f.name == kv.1) with
    | none => false
    | some f => scopeKeeps scope f

/-- The three filtering branches of the applicable permission: a custom
scope with a nonempty allow list keeps exactly the allowed submitted keys,
a custom scope with a nonempty deny list drops exactly the denied ones,
and every other case runs the generic scope loop. -/
def applyScopeFilter (scope : String) (p : Permission) (allFields : List ContentField)
    (data : Data) : Data :=
  if scope == "custom" && !p.allowedFields.isEmpty then
    data.filter fun kv => p.allowedFields.contains kv.1
  else if scope == "custom" && !p.deniedFields.isEmpty then
    data.filter fun kv => !p.deniedFields.contains kv.1
  else filterByScope scope allFields data

/-- Field-level permission filtering: full access returns the input
unchanged; otherwise the first applicable permission decides, with an
unset field scope defaulting to all.  The missing-role case is an error
here; the source would dereference a nil role at this point. -/
def FilterFieldsByPermission (user : User) (action : String) (data : Data) (ct : ContentType) :
    Except String Data :=
  if IsFullAccessRole user then Except.ok data
  else
    match user.role with
    | none => Except.error "user has no role"
    | some role =>
      match findApplicablePermission role.permissions action ct.id with
      | none => Except.error "no permission for this action"
      | some p =>
        let scope := if p.fieldScope == "" then "all" else p.fieldScope
        Except.ok (applyScopeFilter scope p (ct.fields ++ ct.seoFields) data)

/-- Permission walk of the single-field access check: inapplicable modules
and excluded content types are skipped; a custom allow list answers by
membership, a custom deny list by non-membership; the plain scopes answer
from the target field; any other scope (including custom with both lists
empty) falls through to the next permission. -/
def canAccessLoop (fieldName : String) (ctId : Nat) (targetField : ContentField) :
    List Permission → Bool
  | [] => false
  | p :: rest =>
    if p.module != "ContentEntry" then canAccessLoop fieldName ctId targetField rest
    else if !p.contentTypeIds.isEmpty && !p.contentTypeIds.contains ctId then
      canAccessLoop fieldName ctId targetField rest
    else if p.fieldScope == "custom" && !p.allowedFields.isEmpty then
      p.allowedFields.contains fieldName
    else if p.fieldScope == "custom" && !p.deniedFields.isEmpty then
      !p.deniedFields.contains fieldName
    else
      match p.fieldScope with
      | "" | "all" => true
      | "seo_only" => targetField.isSEO
      | "non_seo_only" => !targetField.isSEO
      | _ => canAccessLoop fieldName ctId targetField rest

/-- Single-field access check for the read path: no role denies, full
access allows before the field is even resolved, an unknown field name
denies, and otherwise the permission walk decides. -/
def CanAccessField (user : User) (fieldName : String) (ct : ContentType) : Bool :=
  match user.role with
  | none => false
  | some role =>
    if IsFullAccessRole user then true
    else
      match (ct.fields ++ ct.seoFields).find? (fun f => f.name == fieldName) with
      | none => false
      | some targetField => canAccessLoop fieldName ct.id targetField role.permissions

/-- The handler postlude shared by entry create and update: every
media-id suffixed key of the submitted map is copied into the filtered
payload, overriding whatever filtering decided. -/
def mergeMediaIds (data filtered : Data) : Data :=
  data.foldl
    (fun acc kv => if strEndsWith kv.1 "_media_id" then dataInsert acc kv.1 kv.2 else acc)
    filtered

/-- The handler pipeline around filtering: run the permission filter,
reject an empty filtered map, then copy the media-id suffixed keys back
in. -/
def filterAndMergeMediaIds (user : User) (action : String) (ct : ContentType) (data : Data) :
    Except String Data :=
  match FilterFieldsByPermission user action data ct with
  | Except.error e => Except.error e
  | Except.ok fd =>
    if fd.isEmpty then Except.error "no permission for the provided fields"
    else Except.ok (mergeMediaIds data fd)

/-- Workflow status enumeration backing the entry lifecycle. -/
inductive WorkflowStatus where
  | draft
  | inReview
  | readyForApproval
  | approved
  | published
  | rejected
deriving DecidableEq, Repr

/-- Transition authorization: the role names allowed to move an entry
between two statuses, as the source transition map lists them; any pair
absent from the map allows no role. -/
def isValidTransition (fromStatus toStatus : WorkflowStatus) (userRole : String) : Bool :=
  let allowedRoles : List String :=
    match fromStatus, toStatus with
    | WorkflowStatus.draft, WorkflowStatus.inReview => ["editor", "admin"]
    | WorkflowStatus.inReview, WorkflowStatus.readyForApproval => ["editor", "admin"]
    | WorkflowStatus.inReview, WorkflowStatus.rejected => ["editor", "admin"]
    | WorkflowStatus.inReview, WorkflowStatus.draft => ["editor", "admin"]
    | WorkflowStatus.readyForApproval, WorkflowStatus.approved => ["manager", "admin"]
    | WorkflowStatus.readyForApproval, WorkflowStatus.rejected => ["manager", "admin"]
    | WorkflowStatus.approved, WorkflowStatus.published => ["manager", "admin"]
    | WorkflowStatus.rejected, WorkflowStatus.draft => ["editor", "admin"]
    | _, _ => []
  allowedRoles.contains userRole

/-- The eight-row transition table as the specification states it, one row
per (from, to) pair with its allowed roles. -/
def transitionTable : List (WorkflowStatus × WorkflowStatus × List String) :=
  [(WorkflowStatus.draft, WorkflowStatus.inReview, ["editor", "admin"]),
   (WorkflowStatus.inReview, WorkflowStatus.readyForApproval, ["editor", "admin"]),
   (WorkflowStatus.inReview, WorkflowStatus.rejected, ["editor", "admin"]),
   (WorkflowStatus.inReview, WorkflowStatus.draft, ["editor", "admin"]),
   (WorkflowStatus.readyForApproval, WorkflowStatus.approved, ["manager", "admin"]),
   (WorkflowStatus.readyForApproval, WorkflowStatus.rejected, ["manager", "admin"]),
   (WorkflowStatus.approved, WorkflowStatus.published, ["manager", "admin"]),
   (WorkflowStatus.rejected, WorkflowStatus.draft, ["editor", "admin"])]

/-- Membership of a (from, to, role) triple in the eight-row table. -/
def tripleInTable (fromStatus toStatus : WorkflowStatus) (role : String) : Bool :=
  transitionTable.any fun row =>
    row.1 == fromStatus && row.2.1 == toStatus && row.2.2.contains role

/-- A content entry (`models.ContentEntry`): timestamps are natural
numbers, the publish timestamp and the soft-delete marker are optional. -/
structure ContentEntry where
  id : Nat
  contentTypeId : Nat
  data : Data
  status : WorkflowStatus
  createdBy : Nat
  updatedBy : Nat
  publishedAt : Option Nat
  deletedAt : Option Nat
deriving DecidableEq, Repr

/-- An audit row appended on every successful transition. -/
structure WorkflowHistory where
  entryId : Nat
  fromStatus : WorkflowStatus
  toStatus : WorkflowStatus
  changedBy : Nat
  comment : String
deriving DecidableEq, Repr

/-- The persisted state a workflow call reads and writes: one entry and
its append-only history. -/
structure WorkflowState where
  entry : ContentEntry
  history : List WorkflowHistory
deriving DecidableEq, Repr

/-- Status change: an invalid (from, to, role) triple returns the state
unchanged with an error; a valid one persists the new status, stamps
publishedAt with the current time when the target is published, and
appends exactly one history row carrying the actor and comment. -/
def ChangeWorkflowStatus (s : WorkflowState) (userId : Nat) (roleName : String)
    (toStatus : WorkflowStatus) (comment : String) (now : Nat) :
    WorkflowState × Option String :=
  if isValidTransition s.entry.status toStatus roleName then
    let fromStatus := s.entry.status
    let entry :=
      { s.entry with
        status := toStatus
        publishedAt :=
          if toStatus = WorkflowStatus.published then some now else s.entry.publishedAt }
    ({ entry := entry
       history := s.history ++
         [{ entryId := s.entry.id, fromStatus := fromStatus, toStatus := toStatus,
            changedBy := userId, comment := comment }] }, none)
  else (s, some "invalid status transition")

/-- Entry creation: validate the payload, then persist it with draft
status and no publish or delete marker. -/
def CreateContentEntry (rm : RegexMatcher) (db : EntryDB) (ct : ContentType)
    (createdBy : Nat) (data : Data) (newId : Nat) : Except String ContentEntry :=
  match ValidateContentEntryEnhanced rm db ct data with
  | Except.error e => Except.error e
  | Except.ok d =>
    Except.ok
      { id := newId, contentTypeId := ct.id, data := d, status := WorkflowStatus.draft,
        createdBy := createdBy, updatedBy := 0, publishedAt := none, deletedAt := none }

/-- Entry data update: refused outright on a published entry; otherwise the
payload is validated and persisted, the status is reset to draft and the
updater recorded. -/
def UpdateEntry (rm : RegexMatcher) (db : EntryDB) (ct : ContentType) (entry : ContentEntry)
    (updatedBy : Nat) (data : Data) : Except String ContentEntry :=
  if entry.status == WorkflowStatus.published then
    Except.error "cannot edit published content directly"
  else
    match ValidateContentEntryEnhanced rm db ct data with
    | Except.error e => Except.error e
    | Except.ok d =>
      Except.ok { entry with data := d, status := WorkflowStatus.draft, updatedBy := updatedBy }

/-- Entry deletion: refused on a published entry; otherwise a soft delete
that only stamps the delete marker. -/
def DeleteEntry (entry : ContentEntry) (now : Nat) : Except String ContentEntry :=
  if entry.status == WorkflowStatus.published then
    Except.error "cannot delete published content"
  else Except.ok { entry with deletedAt := some now }

/-- The operations that can touch a persisted entry after creation, for
stating invariants over arbitrary operation sequences. -/
inductive EntryOp where
  | change (userId : Nat) (roleName : String) (toStatus : WorkflowStatus)
      (comment : String) (now : Nat)
  | update (ct : ContentType) (updatedBy : Nat) (data : Data)
  | softDelete (now : Nat)

/-- One operation applied to the persisted state; a refused operation
leaves the state unchanged. -/
def applyEntryOp (rm : RegexMatcher) (db : EntryDB) (s : WorkflowState) : EntryOp → WorkflowState
  | EntryOp.change uid role toStatus c now => (ChangeWorkflowStatus s uid role toStatus c now).1
  | EntryOp.update ct uid d =>
    match UpdateEntry rm db ct s.entry uid d with
    | Except.ok e => { s with entry := e }
    | Except.error _ => s
  | EntryOp.softDelete now =>
    match DeleteEntry s.entry now with
    | Except.ok e => { s with entry := e }
    | Except.error _ => s

/-- A sequence of operations applied in order. -/
def applyEntryOps (rm : RegexMatcher) (db : EntryDB) (s : WorkflowState)
    (ops : List EntryOp) : WorkflowState :=
  ops.foldl (applyEntryOp rm db) s

/-- Success test on a fallible result. -/
def isOkB {α : Type} : Except String α → Bool
  | Except.ok _ => true
  | Except.error _ => false

/-- Rune-count length bound as the specification words it: the number of
Unicode code points must lie within minLength and maxLength.  Modelled
from the spec for comparison against the byte-counting source. -/
def runeLengthWithinBounds (field : ContentField) (s : String) : Bool :=
  (match field.minLength with | some m => decide (m ≤ s.length) | none => true) &&
  (match field.maxLength with | some m => decide (s.length ≤ m) | none => true)

theorem workflowStatusBeqDecide (x y : WorkflowStatus) : (x == y) = decide (x = y) := rfl

theorem isValidTransition_eq_table (f t : WorkflowStatus) (role : String) :
    isValidTransition f t role = tripleInTable f t role := by
  cases f <;> cases t <;>
    simp [isValidTransition, tripleInTable, transitionTable, List.contains, List.any,
      workflowStatusBeqDecide]

theorem UpdateEntry_ok_fields {rm : RegexMatcher} {db : EntryDB} {ct : ContentType}
    {entry : ContentEntry} {uid : Nat} {d : Data} {e : ContentEntry}
    (h : UpdateEntry rm db ct entry uid d = Except.ok e) :
    e.status = WorkflowStatus.draft ∧ e.publishedAt = entry.publishedAt ∧
    e.id = entry.id ∧ e.contentTypeId = entry.contentTypeId ∧
    e.deletedAt = entry.deletedAt ∧ entry.status ≠ WorkflowStatus.published := by
  unfold UpdateEntry at h
  by_cases hp : entry.status == WorkflowStatus.published
  · simp [hp] at h
  · simp only [hp, Bool.false_eq_true, if_false] at h
    cases hv : ValidateContentEntryEnhanced rm db ct d with
    | error msg => rw [hv] at h; cases h
    | ok d2 =>
      rw [hv] at h
      cases h
      refine ⟨rfl, rfl, rfl, rfl, rfl, ?_⟩
      intro hc
      exact absurd (by simp [hc]) hp

theorem DeleteEntry_ok_fields {entry : ContentEntry} {now : Nat} {e : ContentEntry}
    (h : DeleteEntry entry now = Except.ok e) :
    e = { entry with deletedAt := some now } ∧ entry.status ≠ WorkflowStatus.published := by
  unfold DeleteEntry at h
  by_cases hp : entry.status == WorkflowStatus.published
  · simp [hp] at h
  · simp only [hp, Bool.false_eq_true, if_false] at h
    cases h
    exact ⟨rfl, fun hc => absurd (by simp [hc]) hp⟩

theorem applyEntryOp_preserves_publishedAt (rm : RegexMatcher) (db : EntryDB)
    (s : WorkflowState) (op : EntryOp) (h : s.entry.publishedAt.isSome = true) :
    ((applyEntryOp rm db s op).entry.publishedAt).isSome = true := by
  cases op with
  | change uid role t c now =>
    simp only [applyEntryOp, ChangeWorkflowStatus]
    by_cases hv : isValidTransition s.entry.status t role
    · simp only [hv, if_true]
      by_cases ht : t = WorkflowStatus.published <;> simp [ht, h]
    · simp [hv, h]
  | update ct uid d =>
    simp only [applyEntryOp]
    cases hu : UpdateEntry rm db ct s.entry uid d with
    | error msg => simpa using h
    | ok e =>
      have := (UpdateEntry_ok_fields hu).2.1
      simpa [this] using h
  | softDelete now =>
    simp only [applyEntryOp]
    cases hd : DeleteEntry s.entry now with
    | error msg => simpa using h
    | ok e =>
      have he := (DeleteEntry_ok_fields hd).1
      simpa [he] using h

theorem applyEntryOps_preserves_publishedAt (rm : RegexMatcher) (db : EntryDB)
    (s : WorkflowState) (ops : List EntryOp) (h : s.entry.publishedAt.isSome = true) :
    ((applyEntryOps rm db s ops).entry.publishedAt).isSome = true := by
  induction ops generalizing s with
  | nil => simpa [applyEntryOps] using h
  | cons op rest ih =>
    have h1 := applyEntryOp_preserves_publishedAt rm db s op h
    simpa [applyEntryOps] using ih (applyEntryOp rm db s op) h1

/-- C1: a workflow status change succeeds exactly when the
(current status, target status, caller role) triple appears in the fixed
eight-row transition table; every other triple fails, leaving the state
unchanged; success appends exactly one history row carrying the from and
to statuses, the actor and the comment (possibly empty). -/
theorem changeStatus_succeeds_iff_table (s : WorkflowState) (uid : Nat) (role : String)
    (toStatus : WorkflowStatus) (comment : String) (now : Nat) :
    ((ChangeWorkflowStatus s uid role toStatus comment now).2 = none ↔
        tripleInTable s.entry.status toStatus role = true)
    ∧ ((ChangeWorkflowStatus s uid role toStatus comment now).2 ≠ none →
        (ChangeWorkflowStatus s uid role toStatus comment now).1 = s)
    ∧ ((ChangeWorkflowStatus s uid role toStatus comment now).2 = none →
        (ChangeWorkflowStatus s uid role toStatus comment now).1.entry.status = toStatus ∧
        (ChangeWorkflowStatus s uid role toStatus comment now).1.history =
          s.history ++
            [{ entryId := s.entry.id, fromStatus := s.entry.status, toStatus := toStatus,
               changedBy := uid, comment := comment }]) := by
  rw [← isValidTransition_eq_table]
  by_cases h : isValidTransition s.entry.status toStatus role
  · simp [ChangeWorkflowStatus, h]
  · simp [ChangeWorkflowStatus, h]

/-- Witness for C1: an editor moving a draft entry to review succeeds and
appends the single expected history row. -/
theorem changeStatus_table_witness :
    (ChangeWorkflowStatus ⟨⟨1, 1, [], WorkflowStatus.draft, 1, 0, none, none⟩, []⟩ 7 "editor"
        WorkflowStatus.inReview "" 3).1.history =
      [{ entryId := 1, fromStatus := WorkflowStatus.draft, toStatus := WorkflowStatus.inReview,
         changedBy := 7, comment := "" }] :=
  ((changeStatus_succeeds_iff_table ⟨⟨1, 1, [], WorkflowStatus.draft, 1, 0, none, none⟩, []⟩ 7
      "editor" WorkflowStatus.inReview "" 3).2.2 (by decide)).2

/-- C6: a successful transition stamps publishedAt with the current time
exactly when the target status is published and leaves it unchanged
otherwise; a failed transition leaves it unchanged; and once publishedAt
is set, no sequence of later operations (transitions, data updates, soft
deletes) ever clears it. -/
theorem publishedAt_set_only_on_publish (s : WorkflowState) (uid : Nat) (role : String)
    (toStatus : WorkflowStatus) (comment : String) (now : Nat) (rm : RegexMatcher)
    (db : EntryDB) (ops : List EntryOp) :
    ((ChangeWorkflowStatus s uid role toStatus comment now).2 = none →
      (ChangeWorkflowStatus s uid role toStatus comment now).1.entry.publishedAt =
        (if toStatus = WorkflowStatus.published then some now else s.entry.publishedAt))
    ∧ ((ChangeWorkflowStatus s uid role toStatus comment now).2 ≠ none →
      (ChangeWorkflowStatus s uid role toStatus comment now).1.entry.publishedAt =
        s.entry.publishedAt)
    ∧ (s.entry.publishedAt.isSome = true →
      ((applyEntryOps rm db s ops).entry.publishedAt).isSome = true) := by
  refine ⟨?_, ?_, applyEntryOps_preserves_publishedAt rm db s ops⟩ <;>
    by_cases h : isValidTransition s.entry.status toStatus role <;>
      simp [ChangeWorkflowStatus, h]

/-- Witness for C6: publishing an approved entry stamps the publish time,
and the stamp survives a later rejection-free operation sequence. -/
theorem publishedAt_witness :
    (ChangeWorkflowStatus ⟨⟨1, 1, [], WorkflowStatus.approved, 1, 0, none, none⟩, []⟩ 2 "manager"
        WorkflowStatus.published "" 9).1.entry.publishedAt = some 9 :=
  (publishedAt_set_only_on_publish ⟨⟨1, 1, [], WorkflowStatus.approved, 1, 0, none, none⟩, []⟩ 2
      "manager" WorkflowStatus.published "" 9 (fun _ _ => some true) [] []).1 (by decide)

theorem fullAccess_of_pairs {user : User} {r : Role} (hr : user.role = some r)
    (h : ∀ pr ∈ fullAccessPairs, ∃ p ∈ r.permissions, p.module = pr.1 ∧ p.action = pr.2) :
    IsFullAccessRole user = true := by
  simp only [IsFullAccessRole, hr]
  have hall : (fullAccessPairs.all fun pr =>
      r.permissions.any fun p => p.module == pr.1 && p.action == pr.2) = true := by
    rw [List.all_eq_true]
    intro pr hpr
    obtain ⟨p, hp, h1, h2⟩ := h pr hpr
    rw [List.any_eq_true]
    exact ⟨p, hp, by simp [h1, h2]⟩
  simp [hall]

/-- C5: any role holding all four ContentEntry actions, all four Media
actions and all four SEO actions passes the full-access completeness
check, and field filtering then returns its input unchanged for every
action and content type. -/
theorem fullAccess_filter_identity (user : User) (r : Role) (action : String) (data : Data)
    (ct : ContentType) (hr : user.role = some r)
    (h : ∀ pr ∈ fullAccessPairs, ∃ p ∈ r.permissions, p.module = pr.1 ∧ p.action = pr.2) :
    FilterFieldsByPermission user action data ct = Except.ok data := by
  simp [FilterFieldsByPermission, fullAccess_of_pairs hr h]

/-- Witness for C5: a role named neither admin nor anything special, but
holding exactly the twelve module-action permissions, gets its payload
back unchanged. -/
theorem fullAccess_filter_identity_witness :
    FilterFieldsByPermission
        ⟨some ⟨"ops", fullAccessPairs.map (fun pr => { module := pr.1, action := pr.2 })⟩⟩
        "update" [("title", Value.vStr "x")] { id := 1 } =
      Except.ok [("title", Value.vStr "x")] :=
  fullAccess_filter_identity _ ⟨"ops", fullAccessPairs.map (fun pr => { module := pr.1, action := pr.2 })⟩
    "update" [("title", Value.vStr "x")] { id := 1 } rfl (by decide)

/-- C10: a user whose role is literally named admin is treated as full
access regardless of the permissions the role actually holds: filtering
returns its input unchanged and the single-field access check allows
every field name on every content type. -/
theorem adminRole_bypasses (user : User) (r : Role) (action fieldName : String) (data : Data)
    (ct : ContentType) (hr : user.role = some r) (hn : r.name = "admin") :
    IsFullAccessRole user = true ∧
    FilterFieldsByPermission user action data ct = Except.ok data ∧
    CanAccessField user fieldName ct = true := by
  have hfa : IsFullAccessRole user = true := by simp [IsFullAccessRole, hr, hn]
  exact ⟨hfa, by simp [FilterFieldsByPermission, hfa], by simp [CanAccessField, hr, hfa]⟩

/-- Witness for C10: a role named admin holding no permission at all still
passes the single-field access check on a field its content type does not
even declare. -/
theorem adminRole_bypasses_witness :
    CanAccessField ⟨some ⟨"admin", []⟩⟩ "anything" { id := 5 } = true :=
  (adminRole_bypasses ⟨some ⟨"admin", []⟩⟩ ⟨"admin", []⟩ "read" "anything" [] { id := 5 }
    rfl rfl).2.2

/-- C8 (amended): entries are created in draft status; a data update is
refused on a published entry and on success resets the status to draft (a
status change made outside the workflow engine); deletion is refused on a
published entry and is a soft delete that only stamps the delete
marker. -/
theorem entry_lifecycle_rules :
    (∀ (rm : RegexMatcher) (db : EntryDB) (ct : ContentType) (cb : Nat) (data : Data)
        (nid : Nat) (e : ContentEntry), CreateContentEntry rm db ct cb data nid = Except.ok e →
        e.status = WorkflowStatus.draft)
    ∧ (∀ (rm : RegexMatcher) (db : EntryDB) (ct : ContentType) (entry : ContentEntry)
        (uid : Nat) (data : Data), entry.status = WorkflowStatus.published →
        isOkB (UpdateEntry rm db ct entry uid data) = false)
    ∧ (∀ (rm : RegexMatcher) (db : EntryDB) (ct : ContentType) (entry : ContentEntry)
        (uid : Nat) (data : Data) (e : ContentEntry),
        UpdateEntry rm db ct entry uid data = Except.ok e →
        e.status = WorkflowStatus.draft ∧ entry.status ≠ WorkflowStatus.published)
    ∧ (∀ (entry : ContentEntry) (now : Nat), entry.status = WorkflowStatus.published →
        isOkB (DeleteEntry entry now) = false)
    ∧ (∀ (entry : ContentEntry) (now : Nat) (e : ContentEntry),
        DeleteEntry entry now = Except.ok e →
        e = { entry with deletedAt := some now } ∧ entry.status ≠ WorkflowStatus.published) := by
  refine ⟨?_, ?_, ?_, ?_, ?_⟩
  · intro rm db ct cb data nid e h
    unfold CreateContentEntry at h
    cases hv : ValidateContentEntryEnhanced rm db ct data with
    | error msg => rw [hv] at h; cases h
    | ok d => rw [hv] at h; cases h; rfl
  · intro rm db ct entry uid data h
    simp [UpdateEntry, isOkB, h]
  · intro rm db ct entry uid data e h
    exact ⟨(UpdateEntry_ok_fields h).1, (UpdateEntry_ok_fields h).2.2.2.2.2⟩
  · intro entry now h
    simp [DeleteEntry, isOkB, h]
  · intro entry now e h
    exact DeleteEntry_ok_fields h

/-- Witness for C8: updating a published entry is refused. -/
theorem entry_lifecycle_rules_witness :
    isOkB (UpdateEntry (fun _ _ => some true) [] { id := 1 }
        { id := 1, contentTypeId := 1, data := [], status := WorkflowStatus.published,
          createdBy := 1, updatedBy := 0, publishedAt := some 3, deletedAt := none } 2 []) =
      false :=
  entry_lifecycle_rules.2.1 (fun _ _ => some true) [] { id := 1 }
    { id := 1, contentTypeId := 1, data := [], status := WorkflowStatus.published,
      createdBy := 1, updatedBy := 0, publishedAt := some 3, deletedAt := none } 2 [] rfl

/-- Counterexample to C8 as stated: a successful data update on an
approved entry resets its status to draft, so updates do change status
outside the workflow engine. -/
theorem updateEntry_changes_status_counterexample :
    UpdateEntry (fun _ _ => some true) [] { id := 1 }
        { id := 1, contentTypeId := 1, data := [], status := WorkflowStatus.approved,
          createdBy := 1, updatedBy := 0, publishedAt := none, deletedAt := none } 2 [] =
      Except.ok
        { id := 1, contentTypeId := 1, data := [], status := WorkflowStatus.draft,
          createdBy := 1, updatedBy := 2, publishedAt := none, deletedAt := none }
    ∧ WorkflowStatus.approved ≠ WorkflowStatus.draft :=
  ⟨rfl, by decide⟩

/-- Counterexample to C2 as stated: under a custom allow list a submitted
key naming no schema field survives filtering, while the all scope drops
every such key, so the all-scope key set is not a superset. -/
theorem filter_scope_not_monotonic_counterexample :
    FilterFieldsByPermission
        ⟨some ⟨"writer",
          [{ module := "ContentEntry", action := "update", fieldScope := "all",
             allowedFields := ["ghost"] }]⟩⟩ "update"
        [("ghost", Value.vStr "x")] { id := 1 } = Except.ok []
    ∧ FilterFieldsByPermission
        ⟨some ⟨"writer",
          [{ module := "ContentEntry", action := "update", fieldScope := "custom",
             allowedFields := ["ghost"] }]⟩⟩ "update"
        [("ghost", Value.vStr "x")] { id := 1 } = Except.ok [("ghost", Value.vStr "x")]
    ∧ "ghost" ∈ ([("ghost", Value.vStr "x")] : Data).map Prod.fst
    ∧ "ghost" ∉ ([] : Data).map Prod.fst :=
  ⟨rfl, rfl, by decide, by decide⟩


theorem lookup_dataInsert_self (d : Data) (k : String) (v : Value) :
    (dataInsert d k v).lookup k = some v := by
  induction d with
  | nil => simp [dataInsert, List.lookup]
  | cons kv rest ih =>
    obtain ⟨k0, v0⟩ := kv
    by_cases h : k0 = k
    · simp [dataInsert, h, List.lookup]
    · have hb : (k == k0) = false := by simp [Ne.symm h]
      simp [dataInsert, h, List.lookup, hb, ih]

theorem lookup_dataInsert_ne (d : Data) (k k2 : String) (v : Value) (h : k ≠ k2) :
    (dataInsert d k2 v).lookup k = d.lookup k := by
  have hb : (k == k2) = false := by simp [h]
  induction d with
  | nil => simp [dataInsert, List.lookup, hb]
  | cons kv rest ih =>
    obtain ⟨k0, v0⟩ := kv
    by_cases h0 : k0 = k2
    · subst h0
      simp [dataInsert, List.lookup, hb]
    · simp [dataInsert, h0, List.lookup, ih]

theorem mergeMediaIds_cons (kv : String × Value) (rest : Data) (filtered : Data) :
    mergeMediaIds (kv :: rest) filtered =
      mergeMediaIds rest
        (if strEndsWith kv.1 "_media_id" then dataInsert filtered kv.1 kv.2 else filtered) := by
  simp only [mergeMediaIds, List.foldl_cons]

theorem mergeMediaIds_lookup_of_no_key (rest : Data) :
    ∀ (acc : Data) (k : String), (∀ kv ∈ rest, kv.1 ≠ k) →
      (mergeMediaIds rest acc).lookup k = acc.lookup k := by
  induction rest with
  | nil => intro acc k _; rfl
  | cons kv r ih =>
    intro acc k h
    have hk : kv.1 ≠ k := h kv (List.mem_cons_self kv r)
    rw [mergeMediaIds_cons, ih _ k (fun kv2 h2 => h kv2 (List.mem_cons_of_mem kv h2))]
    by_cases hs : strEndsWith kv.1 "_media_id" = true
    · simp [hs, lookup_dataInsert_ne acc k kv.1 kv.2 (Ne.symm hk)]
    · simp [hs]

theorem mergeMediaIds_lookup (data : Data) :
    ∀ (filtered : Data) (k : String) (v : Value), (data.map Prod.fst).Nodup →
      (k, v) ∈ data → strEndsWith k "_media_id" = true →
      (mergeMediaIds data filtered).lookup k = some v := by
  induction data with
  | nil => intro _ _ _ _ hm; cases hm
  | cons kv rest ih =>
    intro filtered k v hnd hm hsuf
    obtain ⟨k0, v0⟩ := kv
    rcases List.mem_cons.mp hm with heq | hmem
    · rw [Prod.mk.injEq] at heq
      obtain ⟨hk, hv⟩ := heq
      subst hk; subst hv
      have hnokey : ∀ kv2 ∈ rest, kv2.1 ≠ k := by
        intro kv2 h2 hc
        have hnin : k ∉ rest.map Prod.fst := by simpa using (List.nodup_cons.mp hnd).1
        exact hnin (hc ▸ List.mem_map_of_mem Prod.fst h2)
      rw [mergeMediaIds_cons]
      simp only [hsuf, if_true]
      rw [mergeMediaIds_lookup_of_no_key rest _ k hnokey]
      exact lookup_dataInsert_self filtered k v
    · rw [mergeMediaIds_cons]
      exact ih _ k v (List.nodup_cons.mp hnd).2 hmem hsuf

/-- C9: media-id suffixed keys bypass field filtering and partial
validation: whenever the filter-and-merge pipeline of the create and
update handlers succeeds, every submitted key ending in the media-id
suffix reappears in the outgoing payload with its submitted value, whatever
the role and scope decided; and partial validation skips such keys
entirely, so they never raise an unknown-field error. -/
theorem mediaId_bypass :
    (∀ (user : User) (action : String) (ct : ContentType) (data out : Data) (k : String)
        (v : Value), filterAndMergeMediaIds user action ct data = Except.ok out →
        (data.map Prod.fst).Nodup → (k, v) ∈ data → strEndsWith k "_media_id" = true →
        out.lookup k = some v)
    ∧ (∀ (rm : RegexMatcher) (db : EntryDB) (ct : ContentType) (m : Data) (entryId : Nat)
        (k : String) (v : Value), strEndsWith k "_media_id" = true →
        ValidatePartialUpdate rm db ct ((k, v) :: m) entryId =
          ValidatePartialUpdate rm db ct m entryId) := by
  constructor
  · intro user action ct data out k v hout hnd hm hsuf
    unfold filterAndMergeMediaIds at hout
    cases hf : FilterFieldsByPermission user action data ct with
    | error e => rw [hf] at hout; cases hout
    | ok fd =>
      rw [hf] at hout
      by_cases he : fd.isEmpty
      · simp [he] at hout
      · simp only [he, Bool.false_eq_true, if_false] at hout
        cases hout
        exact mergeMediaIds_lookup data fd k v hnd hm hsuf
  · intro rm db ct m entryId k v hsuf
    simp [ValidatePartialUpdate, partialLoop, hsuf]

/-- Witness for C9: under a custom allow list that only admits title, the
submitted media-id key is still present, with its raw value, in the
payload the handler passes on. -/
theorem mediaId_bypass_witness :
    (mergeMediaIds [("title", Value.vStr "a"), ("img_media_id", Value.vStr "9")]
        [("title", Value.vStr "a")]).lookup "img_media_id" = some (Value.vStr "9") :=
  mediaId_bypass.1
    ⟨some ⟨"w", [{ module := "ContentEntry", action := "update", fieldScope := "custom",
                   allowedFields := ["title"] }]⟩⟩ "update" { id := 1 }
    [("title", Value.vStr "a"), ("img_media_id", Value.vStr "9")]
    (mergeMediaIds [("title", Value.vStr "a"), ("img_media_id", Value.vStr "9")]
      [("title", Value.vStr "a")])
    "img_media_id" (Value.vStr "9") rfl (by decide) (by decide) (by decide)

theorem partialLoop_cons_ok {rm : RegexMatcher} {db : EntryDB} {ctId eid : Nat}
    {allFields : List ContentField} {k0 : String} {v0 : Value} {rest : Data}
    (h : partialLoop rm db ctId eid allFields ((k0, v0) :: rest) = Except.ok ()) :
    partialLoop rm db ctId eid allFields rest = Except.ok () ∧
    (strEndsWith k0 "_media_id" = false →
      ∃ f, lastFieldNamed allFields k0 = some f ∧
        (isEmptyValue (some v0) = true → f.required = false) ∧
        (isEmptyValue (some v0) = false →
          validateFieldByType rm f v0 = Except.ok () ∧
          (f.unique = true → checkUniqueness db ctId f.name v0 (some eid) = Except.ok ()))) := by
  by_cases hs : strEndsWith k0 "_media_id" = true
  · exact ⟨by simpa [partialLoop, hs] using h, fun hfalse => absurd hs (by simp [hfalse])⟩
  · have hs' : strEndsWith k0 "_media_id" = false := by simpa using hs
    simp only [partialLoop, hs', Bool.false_eq_true, if_false] at h
    cases hl : lastFieldNamed allFields k0 with
    | none => rw [hl] at h; cases h
    | some f =>
      simp only [hl] at h
      by_cases he : isEmptyValue (some v0) = true
      · rw [if_pos he] at h
        by_cases hr : f.required
        · rw [if_pos hr] at h; cases h
        · rw [if_neg hr] at h
          exact ⟨h, fun _ =>
            ⟨f, rfl, fun _ => by simpa using hr, fun hne => absurd he (by simp [hne])⟩⟩
      · rw [if_neg he] at h
        cases hvt : validateFieldByType rm f v0 with
        | error e => rw [hvt] at h; cases h
        | ok u =>
          cases u
          rw [hvt] at h
          cases hu : (if f.unique then checkUniqueness db ctId f.name v0 (some eid)
              else Except.ok ()) with
          | error e => rw [hu] at h; cases h
          | ok u2 =>
            cases u2
            rw [hu] at h
            refine ⟨h, fun _ => ⟨f, rfl, fun hemp => absurd hemp he, fun _ => ⟨hvt, fun hun => ?_⟩⟩⟩
            rw [if_pos hun] at hu
            exact hu

theorem partialLoop_unknown_rejects {rm : RegexMatcher} {db : EntryDB} {ctId eid : Nat}
    {allFields : List ContentField} :
    ∀ (m : Data) (k : String) (v : Value), (k, v) ∈ m → strEndsWith k "_media_id" = false →
      lastFieldNamed allFields k = none →
      partialLoop rm db ctId eid allFields m ≠ Except.ok () := by
  intro m k v
  induction m with
  | nil => intro hm; cases hm
  | cons kv rest ih =>
    intro hm hsuf hlf hok
    obtain ⟨k0, v0⟩ := kv
    obtain ⟨hrest, hspec⟩ := partialLoop_cons_ok hok
    rcases List.mem_cons.mp hm with heq | hmem
    · rw [Prod.mk.injEq] at heq
      obtain ⟨hk, -⟩ := heq
      subst hk
      obtain ⟨f, hf, -, -⟩ := hspec hsuf
      rw [hlf] at hf
      cases hf
    · exact ih hmem hsuf hlf hrest

theorem partialLoop_required_empty_rejects {rm : RegexMatcher} {db : EntryDB} {ctId eid : Nat}
    {allFields : List ContentField} :
    ∀ (m : Data) (k : String) (v : Value) (f : ContentField), (k, v) ∈ m →
      strEndsWith k "_media_id" = false → lastFieldNamed allFields k = some f →
      f.required = true → isEmptyValue (some v) = true →
      partialLoop rm db ctId eid allFields m ≠ Except.ok () := by
  intro m k v f
  induction m with
  | nil => intro hm; cases hm
  | cons kv rest ih =>
    intro hm hsuf hlf hreq hemp hok
    obtain ⟨k0, v0⟩ := kv
    obtain ⟨hrest, hspec⟩ := partialLoop_cons_ok hok
    rcases List.mem_cons.mp hm with heq | hmem
    · rw [Prod.mk.injEq] at heq
      obtain ⟨hk, hv⟩ := heq
      subst hk; subst hv
      obtain ⟨f2, hf2, hre, -⟩ := hspec hsuf
      rw [hlf] at hf2
      cases hf2
      rw [hre hemp] at hreq
      cases hreq
    · exact ih hmem hsuf hlf hreq hemp hrest

theorem partialLoop_present_checked {rm : RegexMatcher} {db : EntryDB} {ctId eid : Nat}
    {allFields : List ContentField} :
    ∀ (m : Data) (k : String) (v : Value) (f : ContentField), (k, v) ∈ m →
      strEndsWith k "_media_id" = false → lastFieldNamed allFields k = some f →
      isEmptyValue (some v) = false →
      partialLoop rm db ctId eid allFields m = Except.ok () →
      validateFieldByType rm f v = Except.ok () ∧
      (f.unique = true → checkUniqueness db ctId f.name v (some eid) = Except.ok ()) := by
  intro m k v f
  induction m with
  | nil => intro hm; cases hm
  | cons kv rest ih =>
    intro hm hsuf hlf hne hok
    obtain ⟨k0, v0⟩ := kv
    obtain ⟨hrest, hspec⟩ := partialLoop_cons_ok hok
    rcases List.mem_cons.mp hm with heq | hmem
    · rw [Prod.mk.injEq] at heq
      obtain ⟨hk, hv⟩ := heq
      subst hk; subst hv
      obtain ⟨f2, hf2, -, hchk⟩ := hspec hsuf
      rw [hlf] at hf2
      cases hf2
      exact hchk hne
    · exact ih hmem hsuf hlf hne hrest

/-- C4 (amended): partial validation accepts the empty update map, so an
omitted required field is never by itself an error; it rejects a present
key naming no schema field — except keys ending in the media-id suffix,
which are skipped outright; it rejects a present nil/empty value of a
required field; and whenever the whole map is accepted, every present
non-empty non-media-id field has passed its per-type check and the
self-excluding uniqueness check. -/
theorem validatePartial_characterization (rm : RegexMatcher) (db : EntryDB) (ct : ContentType)
    (entryId : Nat) :
    (ValidatePartialUpdate rm db ct [] entryId = Except.ok ())
    ∧ (∀ (m : Data) (k : String) (v : Value), (k, v) ∈ m →
        strEndsWith k "_media_id" = false →
        lastFieldNamed (ct.fields ++ ct.seoFields) k = none →
        ValidatePartialUpdate rm db ct m entryId ≠ Except.ok ())
    ∧ (∀ (m : Data) (k : String) (v : Value) (f : ContentField), (k, v) ∈ m →
        strEndsWith k "_media_id" = false →
        lastFieldNamed (ct.fields ++ ct.seoFields) k = some f → f.required = true →
        isEmptyValue (some v) = true →
        ValidatePartialUpdate rm db ct m entryId ≠ Except.ok ())
    ∧ (∀ (m : Data) (k : String) (v : Value) (f : ContentField), (k, v) ∈ m →
        strEndsWith k "_media_id" = false →
        lastFieldNamed (ct.fields ++ ct.seoFields) k = some f →
        isEmptyValue (some v) = false →
        ValidatePartialUpdate rm db ct m entryId = Except.ok () →
        validateFieldByType rm f v = Except.ok () ∧
        (f.unique = true → checkUniqueness db ct.id f.name v (some entryId) = Except.ok ())) :=
  ⟨rfl, fun m k v => partialLoop_unknown_rejects m k v,
   fun m k v f => partialLoop_required_empty_rejects m k v f,
   fun m k v f => partialLoop_present_checked m k v f⟩

/-- Counterexample to C4 as stated: a media-id suffixed key that names no
field of the (fieldless) content type is accepted rather than rejected as
unknown. -/
theorem validatePartial_unknown_mediaId_counterexample :
    ValidatePartialUpdate (fun _ _ => some true) [] { id := 1 }
        [("x_media_id", Value.vStr "1")] 1 = Except.ok ()
    ∧ ({ id := 1 } : ContentType).fields ++ ({ id := 1 } : ContentType).seoFields = [] :=
  ⟨rfl, rfl⟩

/-- Witness for C4: a present but empty required title is rejected on
partial update. -/
theorem validatePartial_characterization_witness :
    ValidatePartialUpdate (fun _ _ => some true) []
        { id := 1, fields := [{ name := "title", type := "string", required := true }] }
        [("title", Value.vStr "")] 4 ≠ Except.ok () :=
  (validatePartial_characterization (fun _ _ => some true) []
      { id := 1, fields := [{ name := "title", type := "string", required := true }] } 4).2.2.1
    [("title", Value.vStr "")] "title" (Value.vStr "")
    { name := "title", type := "string", required := true }
    (by decide) (by decide) rfl rfl (by decide)

theorem validateFields_cons_ok {rm : RegexMatcher} {db : EntryDB} {ctId : Nat}
    {f : ContentField} {rest : List ContentField} {d d2 : Data}
    (h : validateFields rm db ctId (f :: rest) d = Except.ok d2) :
    (isEmptyValue (d.lookup f.name) = true →
      f.required = false ∧
      ((f.defaultValue = "" ∧ validateFields rm db ctId rest d = Except.ok d2) ∨
       (f.defaultValue ≠ "" ∧
        validateFields rm db ctId rest (dataInsert d f.name (Value.vStr f.defaultValue)) =
          Except.ok d2)))
    ∧ (isEmptyValue (d.lookup f.name) = false →
      validateFields rm db ctId rest d = Except.ok d2) := by
  cases hl : d.lookup f.name with
  | none =>
    simp only [validateFields, hl] at h
    constructor
    · intro _
      by_cases hr : f.required
      · rw [if_pos hr] at h; cases h
      · rw [if_neg hr] at h
        refine ⟨by simpa using hr, ?_⟩
        by_cases hd : f.defaultValue = ""
        · rw [if_pos (by simp [hd] : (f.defaultValue == "") = true)] at h
          exact Or.inl ⟨hd, h⟩
        · rw [if_neg (by simp [hd] : ¬(f.defaultValue == "") = true)] at h
          exact Or.inr ⟨hd, h⟩
    · intro hfalse
      simp [isEmptyValue] at hfalse
  | some value =>
    simp only [validateFields, hl] at h
    by_cases he : isEmptyValue (some value) = true
    · rw [if_pos he] at h
      constructor
      · intro _
        by_cases hr : f.required
        · rw [if_pos hr] at h; cases h
        · rw [if_neg hr] at h
          refine ⟨by simpa using hr, ?_⟩
          by_cases hd : f.defaultValue = ""
          · rw [if_pos (by simp [hd] : (f.defaultValue == "") = true)] at h
            exact Or.inl ⟨hd, h⟩
          · rw [if_neg (by simp [hd] : ¬(f.defaultValue == "") = true)] at h
            exact Or.inr ⟨hd, h⟩
      · intro hfalse
        exact absurd he (by simp [hfalse])
    · rw [if_neg he] at h
      cases hvt : validateFieldByType rm f value with
      | error e => rw [hvt] at h; cases h
      | ok u =>
        cases u
        rw [hvt] at h
        cases hu : (if f.unique then checkUniqueness db ctId f.name value none
            else Except.ok ()) with
        | error e => rw [hu] at h; cases h
        | ok u2 =>
          cases u2
          rw [hu] at h
          exact ⟨fun hemp => absurd hemp he, fun _ => h⟩

theorem validateFields_preserves_lookup (rm : RegexMatcher) (db : EntryDB) (ctId : Nat) :
    ∀ (fields : List ContentField) (d d2 : Data),
      validateFields rm db ctId fields d = Except.ok d2 →
      ∀ k, isEmptyValue (d.lookup k) = false → d2.lookup k = d.lookup k := by
  intro fields
  induction fields with
  | nil =>
    intro d d2 h k _
    simp only [validateFields] at h
    cases h
    rfl
  | cons f rest ih =>
    intro d d2 h k hk
    obtain ⟨hemp, hnon⟩ := validateFields_cons_ok h
    by_cases hl : isEmptyValue (d.lookup f.name) = true
    · obtain ⟨hreq, hcase⟩ := hemp hl
      rcases hcase with ⟨hd0, hrec⟩ | ⟨hd0, hrec⟩
      · exact ih d d2 hrec k hk
      · have hkne : k ≠ f.name := by
          intro hc
          rw [hc] at hk
          rw [hk] at hl
          cases hl
        have hpres : (dataInsert d f.name (Value.vStr f.defaultValue)).lookup k = d.lookup k :=
          lookup_dataInsert_ne d k f.name _ hkne
        have hk2 : isEmptyValue
            ((dataInsert d f.name (Value.vStr f.defaultValue)).lookup k) = false := by
          rw [hpres]; exact hk
        rw [ih _ d2 hrec k hk2, hpres]
    · have hl' : isEmptyValue (d.lookup f.name) = false := by simpa using hl
      exact ih d d2 (hnon hl') k hk

theorem validateFields_idem (rm : RegexMatcher) (db : EntryDB) (ctId : Nat) :
    ∀ (fields : List ContentField) (d d1 d2 : Data),
      validateFields rm db ctId fields d = Except.ok d1 →
      validateFields rm db ctId fields d1 = Except.ok d2 → d2 = d1 := by
  intro fields
  induction fields with
  | nil =>
    intro d d1 d2 h1 h2
    simp only [validateFields] at h1 h2
    cases h1
    cases h2
    rfl
  | cons f rest ih =>
    intro d d1 d2 h1 h2
    obtain ⟨hemp1, hnon1⟩ := validateFields_cons_ok h1
    obtain ⟨hemp2, hnon2⟩ := validateFields_cons_ok h2
    by_cases hl : isEmptyValue (d.lookup f.name) = true
    · obtain ⟨hreq, hcase⟩ := hemp1 hl
      rcases hcase with ⟨hd0, hrec1⟩ | ⟨hd0, hrec1⟩
      · by_cases hl1 : isEmptyValue (d1.lookup f.name) = true
        · obtain ⟨-, hcase1⟩ := hemp2 hl1
          rcases hcase1 with ⟨-, hrec2⟩ | ⟨hd1, hrec2⟩
          · exact ih d d1 d2 hrec1 hrec2
          · exact absurd hd0 hd1
        · have hl1' : isEmptyValue (d1.lookup f.name) = false := by simpa using hl1
          exact ih d d1 d2 hrec1 (hnon2 hl1')
      · have hself := lookup_dataInsert_self d f.name (Value.vStr f.defaultValue)
        have hne : isEmptyValue
            ((dataInsert d f.name (Value.vStr f.defaultValue)).lookup f.name) = false := by
          rw [hself]
          simpa [isEmptyValue] using hd0
        have hlook : d1.lookup f.name = some (Value.vStr f.defaultValue) := by
          rw [validateFields_preserves_lookup rm db ctId rest _ d1 hrec1 f.name hne, hself]
        have hl1' : isEmptyValue (d1.lookup f.name) = false := by
          rw [hlook]
          simpa [isEmptyValue] using hd0
        exact ih _ d1 d2 hrec1 (hnon2 hl1')
    · have hl' : isEmptyValue (d.lookup f.name) = false := by simpa using hl
      have hrec1 := hnon1 hl'
      have hlook : d1.lookup f.name = d.lookup f.name :=
        validateFields_preserves_lookup rm db ctId rest d d1 hrec1 f.name hl'
      have hl1' : isEmptyValue (d1.lookup f.name) = false := by rw [hlook]; exact hl'
      exact ih d d1 d2 hrec1 (hnon2 hl1')

/-- C7 (amended): repeated validation never drifts — when a payload
validates successfully into a defaulted payload and validating that result
succeeds again, the second run returns it unchanged.  The second run is
not guaranteed to succeed: defaults are injected as strings without being
validated, so re-validation can reject a previously accepted payload (see
the counterexample). -/
theorem validate_defaulted_no_drift (rm : RegexMatcher) (db : EntryDB) (ct : ContentType)
    (data d1 d2 : Data) (h1 : ValidateContentEntryEnhanced rm db ct data = Except.ok d1)
    (h2 : ValidateContentEntryEnhanced rm db ct d1 = Except.ok d2) : d2 = d1 :=
  validateFields_idem rm db ct.id (ct.fields ++ ct.seoFields) data d1 d2 h1 h2

/-- Witness for C7: a payload defaulted on first validation is returned
unchanged by a successful second validation. -/
theorem validate_defaulted_no_drift_witness :
    ValidateContentEntryEnhanced (fun _ _ => some true) []
        { id := 1, fields := [{ name := "t", type := "string", defaultValue := "hi" }] } [] =
      Except.ok [("t", Value.vStr "hi")]
    ∧ ([("t", Value.vStr "hi")] : Data) = [("t", Value.vStr "hi")] :=
  ⟨rfl, validate_defaulted_no_drift (fun _ _ => some true) []
      { id := 1, fields := [{ name := "t", type := "string", defaultValue := "hi" }] }
      [] [("t", Value.vStr "hi")] [("t", Value.vStr "hi")] rfl rfl⟩

/-- Counterexample to C7 as stated: a number field with a (string) default
validates successfully on an empty payload, injecting the default, but
validating the returned payload again fails, because the injected default
is a string where a number is required. -/
theorem validate_not_idempotent_counterexample :
    ValidateContentEntryEnhanced (fun _ _ => some true) []
        { id := 1, fields := [{ name := "n", type := "number", defaultValue := "x" }] } [] =
      Except.ok [("n", Value.vStr "x")]
    ∧ isOkB (ValidateContentEntryEnhanced (fun _ _ => some true) []
        { id := 1, fields := [{ name := "n", type := "number", defaultValue := "x" }] }
        [("n", Value.vStr "x")]) = false :=
  ⟨rfl, rfl⟩

/-- Counterexample to C3 as stated: a one-rune, two-byte string passes a
minimum length of two — the validator counts UTF-8 bytes, so the
spec-mandated rune-count bound is not enforced. -/
theorem validateString_rune_count_counterexample :
    validateString (fun _ _ => some true)
        { name := "t", type := "string", minLength := some 2 } (Value.vStr "é") =
      Except.ok ()
    ∧ runeLengthWithinBounds { name := "t", type := "string", minLength := some 2 } "é" = false
    ∧ "é".length = 1 ∧ utf8ByteLength "é" = 2 :=
  ⟨rfl, by decide, by decide, by decide⟩

/-- C3 (amended): for a string value with no configured pattern on a field
not named slug, string validation succeeds exactly when the UTF-8 byte
count of the value (Go len) lies within minLength and maxLength; the
bounds are byte counts, not rune counts. -/
theorem validateString_byte_bounds (rm : RegexMatcher) (f : ContentField) (s : String)
    (hp : f.pattern = "") (hn : f.name ≠ "slug") :
    validateString rm f (Value.vStr s) = Except.ok () ↔
      ((match f.minLength with | some m => m ≤ utf8ByteLength s | none => True) ∧
       (match f.maxLength with | some m => utf8ByteLength s ≤ m | none => True)) := by
  have hnB : (f.name == "slug") = false := by simp [hn]
  have hpB : (f.pattern == "") = true := by simp [hp]
  cases hmin : f.minLength with
  | none =>
    cases hmax : f.maxLength with
    | none => simp [validateString, hmin, hmax, hpB, slugGuard, hnB]
    | some M =>
      by_cases hM : M < utf8ByteLength s <;>
        simp [validateString, hmin, hmax, hpB, slugGuard, hnB, hM] <;> omega
  | some m =>
    cases hmax : f.maxLength with
    | none =>
      by_cases hm : utf8ByteLength s < m <;>
        simp [validateString, hmin, hmax, hpB, slugGuard, hnB, hm] <;> omega
    | some M =>
      by_cases hm : utf8ByteLength s < m <;> by_cases hM : M < utf8ByteLength s <;>
        simp [validateString, hmin, hmax, hpB, slugGuard, hnB, hm, hM] <;> omega

/-- Witness for C3: a two-byte, two-character string within byte bounds
one to three is accepted. -/
theorem validateString_byte_bounds_witness :
    validateString (fun _ _ => some true)
        { name := "t", type := "string", minLength := some 1, maxLength := some 3 }
        (Value.vStr "ab") = Except.ok () :=
  (validateString_byte_bounds (fun _ _ => some true)
      { name := "t", type := "string", minLength := some 1, maxLength := some 3 } "ab"
      rfl (by decide)).mpr (by decide)

theorem isFullAccess_scope_irrelevant (name : String) (p : Permission) (sc : String) :
    IsFullAccessRole ⟨some ⟨name, [{ p with fieldScope := sc }]⟩⟩ =
      IsFullAccessRole ⟨some ⟨name, [p]⟩⟩ := by
  simp [IsFullAccessRole]

theorem applyScopeFilter_mem (scope : String) (p : Permission)
    (allFields : List ContentField) (data : Data) :
    ∀ kv ∈ applyScopeFilter scope p allFields data, kv ∈ data := by
  unfold applyScopeFilter
  split
  · intro kv hkv
    exact (List.mem_filter.mp hkv).1
  · split
    · intro kv hkv
      exact (List.mem_filter.mp hkv).1
    · intro kv hkv
      unfold filterByScope at hkv
      exact (List.mem_filter.mp hkv).1

theorem filterFields_result_mem {user : User} {action : String} {data : Data}
    {ct : ContentType} {res : Data}
    (h : FilterFieldsByPermission user action data ct = Except.ok res) :
    ∀ kv ∈ res, kv ∈ data := by
  unfold FilterFieldsByPermission at h
  by_cases hfa : IsFullAccessRole user = true
  · rw [if_pos hfa] at h
    cases h
    exact fun kv hkv => hkv
  · rw [if_neg hfa] at h
    cases hrole : user.role with
    | none => rw [hrole] at h; cases h
    | some role =>
      simp only [hrole] at h
      cases hfp : findApplicablePermission role.permissions action ct.id with
      | none => rw [hfp] at h; cases h
      | some p =>
        simp only [hfp] at h
        cases h
        exact applyScopeFilter_mem _ p _ data

theorem filterByScope_all_of_known (allFields : List ContentField) (data : Data)
    (hkeys : ∀ kv ∈ data, ∃ f ∈ allFields, f.name = kv.1) :
    filterByScope "all" allFields data = data := by
  unfold filterByScope
  apply List.filter_eq_self.mpr
  intro kv hkv
  obtain ⟨f, hf, hname⟩ := hkeys kv hkv
  cases hfind : allFields.find? (fun g => g.name == kv.1) with
  | none =>
    exfalso
    have := List.find?_eq_none.mp hfind f hf
    simp [hname] at this
  | some g =>
    simp only [hfind]
    rfl

theorem applyScopeFilter_all (p : Permission) (allFields : List ContentField) (data : Data)
    (hkeys : ∀ kv ∈ data, ∃ f ∈ allFields, f.name = kv.1) :
    applyScopeFilter "all" p allFields data = data := by
  have hc : (("all" : String) == "custom") = false := by decide
  unfold applyScopeFilter
  rw [if_neg (by simp [hc]), if_neg (by simp [hc])]
  exact filterByScope_all_of_known allFields data hkeys

/-- C2 (amended): for a non-full-access single-permission role, the key
set surviving filtering under any field scope is contained in the key set
surviving the same permission with scope all, provided every submitted
key names a schema field; a custom allow or deny list can admit keys
naming no schema field, which the all scope drops, so the unrestricted
statement fails (see the counterexample). -/
theorem filter_scope_monotonic (name action : String) (p : Permission) (ct : ContentType)
    (data res resAll : Data)
    (hmod : p.module = "ContentEntry") (hact : p.action = action)
    (hcts : p.contentTypeIds = [])
    (hfa : IsFullAccessRole ⟨some ⟨name, [p]⟩⟩ = false)
    (hkeys : ∀ kv ∈ data, ∃ f ∈ ct.fields ++ ct.seoFields, f.name = kv.1)
    (hres : FilterFieldsByPermission ⟨some ⟨name, [p]⟩⟩ action data ct = Except.ok res)
    (hall : FilterFieldsByPermission ⟨some ⟨name, [{ p with fieldScope := "all" }]⟩⟩ action
      data ct = Except.ok resAll) :
    ∀ k, k ∈ res.map Prod.fst → k ∈ resAll.map Prod.fst := by
  have hfa2 : IsFullAccessRole ⟨some ⟨name, [{ p with fieldScope := "all" }]⟩⟩ = false := by
    rw [isFullAccess_scope_irrelevant]
    exact hfa
  have happ : permApplies action ct.id { p with fieldScope := "all" } = true := by
    simp [permApplies, hmod, hact, hcts]
  have hfind : findApplicablePermission [{ p with fieldScope := "all" }] action ct.id =
      some { p with fieldScope := "all" } := by
    simp [findApplicablePermission, List.find?, happ]
  have hresAll_eq : resAll = data := by
    unfold FilterFieldsByPermission at hall
    rw [if_neg (by simp [hfa2])] at hall
    simp [hfind] at hall
    rw [applyScopeFilter_all { p with fieldScope := "all" } (ct.fields ++ ct.seoFields) data
      hkeys] at hall
    exact hall.symm
  intro k hk
  obtain ⟨kv, hkv, hfst⟩ := List.mem_map.mp hk
  rw [hresAll_eq]
  exact List.mem_map.mpr ⟨kv, filterFields_result_mem hres kv hkv, hfst⟩

/-- Witness for C2: a seo-only scope keeps the submitted SEO key, and that
key indeed also survives under the all scope. -/
theorem filter_scope_monotonic_witness :
    "meta" ∈ ([("meta", Value.vStr "y")] : Data).map Prod.fst :=
  filter_scope_monotonic "w" "update"
    { module := "ContentEntry", action := "update", fieldScope := "seo_only" }
    { id := 1, seoFields := [{ name := "meta", type := "text", isSEO := true }] }
    [("meta", Value.vStr "y")] [("meta", Value.vStr "y")] [("meta", Value.vStr "y")]
    rfl rfl rfl (by decide) (by decide) rfl rfl "meta" (by decide)
